import Mathlib

set_option maxHeartbeats 1000000

/-!
Shallow embedding of `src/inventory_system_backend/src/lib.rs`: a stable
key-value store for `Warehouse` and `Product` records, a persisted 64-bit
id counter, and the CRUD operations over them.  The `StableBTreeMap` is
modelled as an association list sorted by key (its iteration order is
ascending key order, and `insert` returns the previous value).  The u64
counter cell wraps at `2 ^ 64`, which the model keeps explicit.
-/

/-- Wrap-around bound of the 64-bit id counter cell (`IdCell = Cell<u64, _>`). -/
def U64 : Nat := 2 ^ 64

/-- `struct Warehouse { id: u64, name: String, address: String }`. -/
structure Warehouse where
  id : Nat
  name : String
  address : String
deriving DecidableEq

/-- `struct Product { id, name, quantity: u32, category, warehouse, added_at: u64, re_stocked_at: u64 }`. -/
structure Product where
  id : Nat
  name : String
  quantity : Nat
  category : String
  warehouse : Warehouse
  added_at : Nat
  re_stocked_at : Nat
deriving DecidableEq

/-- `struct WarehousePayload` with `#[validate(length(min = 3))]` on `name` and `address`. -/
structure WarehousePayload where
  name : String
  address : String
  password : String
  city : String
deriving DecidableEq

/-- `struct ProductPayload` with `#[validate(length(min = 3))]` on `name` only. -/
structure ProductPayload where
  name : String
  category : String
  quantity : Nat
  warehouse_id : Nat
deriving DecidableEq

/-- `struct EditProductPayload { name, password, product_id }` (no validation attributes). -/
structure EditProductPayload where
  name : String
  password : String
  product_id : Nat
deriving DecidableEq

/-- `struct GetProductPayload { product_id, amount: u32 }`. -/
structure GetProductPayload where
  product_id : Nat
  amount : Nat
deriving DecidableEq

/-- `struct EditWarehousePayload { warehouse_id, name }` (no validation attributes). -/
structure EditWarehousePayload where
  warehouse_id : Nat
  name : String
deriving DecidableEq

/-- `enum Error { NotFound, AlreadyInit, InvalidPayload, Unauthorized }`, each with a message. -/
inductive Error where
  | NotFound (msg : String)
  | AlreadyInit (msg : String)
  | InvalidPayload (msg : String)
  | Unauthorized (msg : String)
deriving DecidableEq

/-- Lookup in the key-sorted association list modelling `StableBTreeMap::get`. -/
def mapGet {α : Type} : List (Nat × α) → Nat → Option α
  | [], _ => none
  | (k0, v0) :: rest, k => if k = k0 then some v0 else mapGet rest k

/-- Sorted insert modelling `StableBTreeMap::insert`: returns the new map
together with the previous value under the key (upsert semantics). -/
def mapInsert {α : Type} : List (Nat × α) → Nat → α → List (Nat × α) × Option α
  | [], k, v => ([(k, v)], none)
  | (k0, v0) :: rest, k, v =>
    if k < k0 then ((k, v) :: (k0, v0) :: rest, none)
    else if k = k0 then ((k, v) :: rest, some v0)
    else
      let r := mapInsert rest k v
      ((k0, v0) :: r.1, r.2)

/-- The persistent state: the `ID_COUNTER` cell and the two stores
`WAREHOUSE_STORAGE` and `PRODUCT_STORAGE`. -/
structure State where
  counter : Nat
  warehouses : List (Nat × Warehouse)
  products : List (Nat × Product)
deriving DecidableEq

/-- Fresh state: counter cell initialised to 0, both maps empty. -/
def initState : State := ⟨0, [], []⟩

/-- Substring test on char lists, modelling Rust `str::contains`. -/
def containsSub : List Char → List Char → Bool
  | [], needle => needle.isEmpty
  | a :: rest, needle => needle.isPrefixOf (a :: rest) || containsSub rest needle

/-- `haystack.contains(&needle)` on strings. -/
def strContains (hay needle : String) : Bool :=
  containsSub hay.data needle.data

/-- `get_all_warehouses()`: all stored warehouses in map iteration order;
`NotFound` when there are none. -/
def get_all_warehouses (st : State) : Except Error (List Warehouse) :=
  let warehouses := st.warehouses.map Prod.snd
  match warehouses.length with
  | 0 => .error (.NotFound "no Warehouses found")
  | _ + 1 => .ok warehouses

/-- `get_warehouse_by_name(search)`: case-insensitive substring filter on `name`. -/
def get_warehouse_by_name (st : State) (search : String) : Except Error (List Warehouse) :=
  let query := search.toLower
  let warehouses := st.warehouses.map Prod.snd
  let incomplete_products := warehouses.filter (fun warehouse => strContains warehouse.name.toLower query)
  match incomplete_products.length with
  | 0 => .error (.NotFound ("No warehouses for name: " ++ query ++ " could be found"))
  | _ + 1 => .ok incomplete_products

/-- `get_warehouse_by_id(id)`. -/
def get_warehouse_by_id (st : State) (id : Nat) : Except Error Warehouse :=
  match mapGet st.warehouses id with
  | some warehouse => .ok warehouse
  | none => .error (.NotFound ("warehouse of id: " ++ toString id ++ " not found"))

/-- `add_warehouse(payload)`: validates the payload, allocates the next id
(the counter cell stores `current_id + 1`, a wrapping u64 addition), inserts,
and treats an unexpected previous value as an `InvalidPayload` failure. -/
def add_warehouse (st : State) (payload : WarehousePayload) : Except Error Warehouse × State :=
  if ¬ (3 ≤ payload.name.length ∧ 3 ≤ payload.address.length) then
    (.error (.InvalidPayload "Validation error"), st)
  else
    let id := st.counter
    let st1 : State := { st with counter := (st.counter + 1) % U64 }
    let warehouse : Warehouse := ⟨id, payload.name, payload.address⟩
    let r := mapInsert st1.warehouses id warehouse
    let st2 : State := { st1 with warehouses := r.1 }
    match r.2 with
    | some _ => (.error (.InvalidPayload ("Could not add warehouse name: " ++ payload.name)), st2)
    | none => (.ok warehouse, st2)

/-- `edit_warehouse(payload)`: looks the warehouse up, replaces only `name`
(struct-update syntax), re-inserts under `warehouse.id`; a missing previous
value on re-insert is surfaced as `InvalidPayload`. -/
def edit_warehouse (st : State) (payload : EditWarehousePayload) : Except Error Warehouse × State :=
  match mapGet st.warehouses payload.warehouse_id with
  | some warehouse =>
    let new_warehouse : Warehouse := { warehouse with name := payload.name }
    let r := mapInsert st.warehouses warehouse.id new_warehouse
    let st2 : State := { st with warehouses := r.1 }
    match r.2 with
    | some _ => (.ok new_warehouse, st2)
    | none => (.error (.InvalidPayload ("Could not edit warehouse     title: " ++ warehouse.name)), st2)
  | none => (.error (.NotFound ("warehouse of id: " ++ toString payload.warehouse_id ++ " not found")), st)

/-- `get_product(id)`. -/
def get_product (st : State) (id : Nat) : Except Error Product :=
  match mapGet st.products id with
  | some product => .ok product
  | none => .error (.NotFound ("product id:" ++ toString id ++ " does not exist"))

/-- `add_product(payload)`: validates the payload, allocates the next id
(the counter is incremented before the warehouse lookup), then looks the
warehouse up; if present, builds the product with an embedded copy of the
warehouse and both timestamps set to `time()` (both calls happen inside one
message execution and return the same value, passed here as `now`). -/
def add_product (st : State) (payload : ProductPayload) (now : Nat) : Except Error Product × State :=
  if ¬ (3 ≤ payload.name.length) then
    (.error (.InvalidPayload "Validation error"), st)
  else
    let id := st.counter
    let st1 : State := { st with counter := (st.counter + 1) % U64 }
    match mapGet st1.warehouses payload.warehouse_id with
    | some warehouse =>
      let product : Product :=
        { id := id, name := payload.name, quantity := payload.quantity,
          category := payload.category, warehouse := warehouse,
          added_at := now, re_stocked_at := now }
      let r := mapInsert st1.products id product
      let st2 : State := { st1 with products := r.1 }
      match r.2 with
      | none => (.ok product, st2)
      | some _ => (.error (.InvalidPayload ("Could not add product name: " ++ payload.name)), st2)
    | none => (.error (.NotFound ("Warehouse of id: " ++ toString payload.warehouse_id ++ " not found")), st1)

/-- `remove_product_from_warehouse(payload)`: rejects a withdrawal larger than
the stored quantity, otherwise re-inserts the record with the decremented
quantity (struct-update syntax keeps every other field). -/
def remove_product_from_warehouse (st : State) (payload : GetProductPayload) : Except Error Product × State :=
  match mapGet st.products payload.product_id with
  | some product =>
    if product.quantity < payload.amount then
      (.error (.InvalidPayload ("Not enough quantity of product: " ++ product.name)), st)
    else
      let new_product : Product := { product with quantity := product.quantity - payload.amount }
      let r := mapInsert st.products product.id new_product
      let st2 : State := { st with products := r.1 }
      match r.2 with
      | some _ => (.ok new_product, st2)
      | none => (.error (.InvalidPayload ("Could not remove product name: " ++ product.name)), st2)
  | none => (.error (.NotFound ("product of id: " ++ toString payload.product_id ++ " not found")), st)

/-- `edit_product(payload)`: looks the product up, replaces only `name`,
re-inserts under `product.id`. -/
def edit_product (st : State) (payload : EditProductPayload) : Except Error Product × State :=
  match mapGet st.products payload.product_id with
  | some product =>
    let new_product : Product := { product with name := payload.name }
    let r := mapInsert st.products product.id new_product
    let st2 : State := { st with products := r.1 }
    match r.2 with
    | some _ => (.ok new_product, st2)
    | none => (.error (.InvalidPayload ("Could not edit product name: " ++ product.name)), st2)
  | none => (.error (.NotFound ("product of id: " ++ toString payload.product_id ++ " not found")), st)

/-- One request against the canister: each constructor is one of the nine
exported query/update functions together with its argument. -/
inductive Op where
  | getAllW
  | getWByName (search : String)
  | getWById (id : Nat)
  | addW (payload : WarehousePayload)
  | editW (payload : EditWarehousePayload)
  | getP (id : Nat)
  | addP (payload : ProductPayload) (now : Nat)
  | removeP (payload : GetProductPayload)
  | editP (payload : EditProductPayload)
deriving DecidableEq

/-- Return value of an operation: a warehouse, a product, or a list of warehouses. -/
inductive Ret where
  | w (x : Warehouse)
  | p (x : Product)
  | ws (xs : List Warehouse)
deriving DecidableEq

/-- Dispatch one operation against the state; queries leave the state unchanged. -/
def applyOp (o : Op) (st : State) : Except Error Ret × State :=
  match o with
  | .getAllW => ((get_all_warehouses st).map .ws, st)
  | .getWByName s => ((get_warehouse_by_name st s).map .ws, st)
  | .getWById i => ((get_warehouse_by_id st i).map .w, st)
  | .addW pl =>
    let r := add_warehouse st pl
    (r.1.map .w, r.2)
  | .editW pl =>
    let r := edit_warehouse st pl
    (r.1.map .w, r.2)
  | .getP i => ((get_product st i).map .p, st)
  | .addP pl now =>
    let r := add_product st pl now
    (r.1.map .p, r.2)
  | .removeP pl =>
    let r := remove_product_from_warehouse st pl
    (r.1.map .p, r.2)
  | .editP pl =>
    let r := edit_product st pl
    (r.1.map .p, r.2)

/-- Run a sequence of operations, returning the final state. -/
def runOps : List Op → State → State
  | [], st => st
  | o :: rest, st => runOps rest (applyOp o st).2

/-- The id carried by the record returned by a successful create operation. -/
def createdId (o : Op) (r : Except Error Ret) : Option Nat :=
  match o with
  | .addW _ =>
    match r with
    | .ok (.w x) => some x.id
    | _ => none
  | .addP _ _ =>
    match r with
    | .ok (.p x) => some x.id
    | _ => none
  | _ => none

/-- The ids of all records returned by successful creates in a run, in order. -/
def runIds : List Op → State → List Nat
  | [], _ => []
  | o :: rest, st =>
    let r := applyOp o st
    match createdId o r.1 with
    | some i => i :: runIds rest r.2
    | none => runIds rest r.2

/-- Keys of the association list are strictly increasing. -/
def SortedKeys {α : Type} (m : List (Nat × α)) : Prop :=
  List.Pairwise (fun a b => a.1 < b.1) m

/-- Well-formedness of a reachable state: both maps are key-sorted, every
stored record carries its own key in its `id` field, and every key is below
the counter. -/
def WF (st : State) : Prop :=
  SortedKeys st.warehouses ∧ SortedKeys st.products ∧
  (∀ e ∈ st.warehouses, e.2.id = e.1 ∧ e.1 < st.counter) ∧
  (∀ e ∈ st.products, e.2.id = e.1 ∧ e.1 < st.counter)

instance instDecidableEqExcept {ε α : Type} [DecidableEq ε] [DecidableEq α] :
    DecidableEq (Except ε α) := fun x y =>
  match x, y with
  | .ok a, .ok b =>
    if h : a = b then .isTrue (by rw [h]) else .isFalse (fun hc => by cases hc; exact h rfl)
  | .error a, .error b =>
    if h : a = b then .isTrue (by rw [h]) else .isFalse (fun hc => by cases hc; exact h rfl)
  | .ok _, .error _ => .isFalse (fun hc => by cases hc)
  | .error _, .ok _ => .isFalse (fun hc => by cases hc)

instance instDecidableWF (st : State) : Decidable (WF st) := by
  unfold WF SortedKeys
  infer_instance

/-! ### Association-list lemmas -/

lemma sortedKeys_cons {α : Type} {e : Nat × α} {rest : List (Nat × α)} :
    SortedKeys (e :: rest) ↔ (∀ b ∈ rest, e.1 < b.1) ∧ SortedKeys rest := by
  simp [SortedKeys, List.pairwise_cons]

lemma mapGet_mem {α : Type} {m : List (Nat × α)} {k : Nat} {v : α}
    (h : mapGet m k = some v) : (k, v) ∈ m := by
  induction m with
  | nil => simp [mapGet] at h
  | cons e rest ih =>
    obtain ⟨k0, v0⟩ := e
    by_cases hk : k = k0
    · subst hk
      simp [mapGet] at h
      subst h
      exact List.mem_cons_self _ _
    · simp [mapGet, hk] at h
      exact List.mem_cons_of_mem _ (ih h)

lemma mapGet_eq_none {α : Type} {m : List (Nat × α)} {k : Nat}
    (h : ∀ e ∈ m, e.1 ≠ k) : mapGet m k = none := by
  induction m with
  | nil => rfl
  | cons e rest ih =>
    obtain ⟨k0, v0⟩ := e
    have hk : k ≠ k0 := by
      have := h (k0, v0) (List.mem_cons_self _ _)
      simp at this
      omega
    simp only [mapGet, if_neg hk]
    exact ih fun e he => h e (List.mem_cons_of_mem _ he)

lemma mem_mapInsert {α : Type} {m : List (Nat × α)} {k : Nat} {v : α} {e : Nat × α}
    (h : e ∈ (mapInsert m k v).1) : e = (k, v) ∨ e ∈ m := by
  induction m with
  | nil =>
    simp [mapInsert] at h
    exact Or.inl h
  | cons e0 rest ih =>
    obtain ⟨k0, v0⟩ := e0
    by_cases h1 : k < k0
    · simp [mapInsert, if_pos h1] at h
      rcases h with h | h | h
      · exact Or.inl (by simp [h])
      · exact Or.inr (by simp [h])
      · exact Or.inr (List.mem_cons_of_mem _ h)
    · by_cases h2 : k = k0
      · simp [mapInsert, if_neg h1, if_pos h2] at h
        rcases h with h | h
        · exact Or.inl (by simp [h])
        · exact Or.inr (List.mem_cons_of_mem _ h)
      · simp only [mapInsert, if_neg h1, if_neg h2, List.mem_cons] at h
        rcases h with h | h
        · exact Or.inr (by simp [h])
        · rcases ih h with h' | h'
          · exact Or.inl h'
          · exact Or.inr (List.mem_cons_of_mem _ h')

lemma mapInsert_snd_eq_mapGet {α : Type} {m : List (Nat × α)} {k : Nat} {v : α}
    (hs : SortedKeys m) : (mapInsert m k v).2 = mapGet m k := by
  induction m with
  | nil => rfl
  | cons e0 rest ih =>
    obtain ⟨k0, v0⟩ := e0
    rw [sortedKeys_cons] at hs
    by_cases h1 : k < k0
    · have hk : k ≠ k0 := by omega
      have hnone : mapGet rest k = none := by
        refine mapGet_eq_none fun e he => ?_
        have := hs.1 e he
        simp at this
        omega
      simp [mapInsert, if_pos h1, mapGet, hk, hnone]
    · by_cases h2 : k = k0
      · simp [mapInsert, if_neg h1, if_pos h2, mapGet, h2]
      · simp only [mapInsert, if_neg h1, if_neg h2, mapGet]
        exact ih hs.2

lemma mapGet_mapInsert_self {α : Type} {m : List (Nat × α)} {k : Nat} {v : α} :
    mapGet (mapInsert m k v).1 k = some v := by
  induction m with
  | nil => simp [mapInsert, mapGet]
  | cons e0 rest ih =>
    obtain ⟨k0, v0⟩ := e0
    by_cases h1 : k < k0
    · simp [mapInsert, if_pos h1, mapGet]
    · by_cases h2 : k = k0
      · simp [mapInsert, if_neg h1, if_pos h2, mapGet]
      · simp only [mapInsert, if_neg h1, if_neg h2, mapGet, if_neg h2]
        exact ih

lemma mapGet_mapInsert_ne {α : Type} {m : List (Nat × α)} {k k' : Nat} {v : α}
    (hk : k' ≠ k) : mapGet (mapInsert m k v).1 k' = mapGet m k' := by
  induction m with
  | nil => simp [mapInsert, mapGet, hk]
  | cons e0 rest ih =>
    obtain ⟨k0, v0⟩ := e0
    by_cases h1 : k < k0
    · simp [mapInsert, if_pos h1, mapGet, hk]
    · by_cases h2 : k = k0
      · subst h2
        simp [mapInsert, if_neg h1, mapGet, hk]
      · simp only [mapInsert, if_neg h1, if_neg h2, mapGet]
        by_cases h3 : k' = k0
        · simp [h3]
        · simp only [if_neg h3]
          exact ih

lemma sortedKeys_mapInsert {α : Type} {m : List (Nat × α)} {k : Nat} {v : α}
    (hs : SortedKeys m) : SortedKeys (mapInsert m k v).1 := by
  induction m with
  | nil => simp [mapInsert, SortedKeys]
  | cons e0 rest ih =>
    obtain ⟨k0, v0⟩ := e0
    rw [sortedKeys_cons] at hs
    by_cases h1 : k < k0
    · simp only [mapInsert, if_pos h1]
      rw [sortedKeys_cons]
      refine ⟨?_, by rw [sortedKeys_cons]; exact hs⟩
      intro b hb
      rcases List.mem_cons.mp hb with h | h
      · simp [h]; exact h1
      · have := hs.1 b h
        simp at this ⊢
        omega
    · by_cases h2 : k = k0
      · subst h2
        have heq : (mapInsert ((k, v0) :: rest) k v).1 = (k, v) :: rest := by
          simp [mapInsert]
        rw [heq, sortedKeys_cons]
        exact ⟨hs.1, hs.2⟩
      · simp only [mapInsert, if_neg h1, if_neg h2]
        rw [sortedKeys_cons]
        refine ⟨?_, ih hs.2⟩
        intro b hb
        rcases mem_mapInsert hb with h | h
        · subst h
          simp
          omega
        · exact hs.1 b h

/-! ### Consequences of well-formedness -/

lemma WF.wSorted {st : State} (h : WF st) : SortedKeys st.warehouses := h.1

lemma WF.pSorted {st : State} (h : WF st) : SortedKeys st.products := h.2.1

lemma WF.wGet_counter_none {st : State} (h : WF st) :
    mapGet st.warehouses st.counter = none :=
  mapGet_eq_none fun e he => Nat.ne_of_lt (h.2.2.1 e he).2

lemma WF.pGet_counter_none {st : State} (h : WF st) :
    mapGet st.products st.counter = none :=
  mapGet_eq_none fun e he => Nat.ne_of_lt (h.2.2.2 e he).2

lemma WF.wGet_id {st : State} {k : Nat} {w : Warehouse} (h : WF st)
    (hg : mapGet st.warehouses k = some w) : w.id = k :=
  (h.2.2.1 (k, w) (mapGet_mem hg)).1

lemma WF.pGet_id {st : State} {k : Nat} {p : Product} (h : WF st)
    (hg : mapGet st.products k = some p) : p.id = k :=
  (h.2.2.2 (k, p) (mapGet_mem hg)).1

/-! ### Characterization of each operation -/

lemma add_warehouse_invalid (st : State) (pl : WarehousePayload)
    (h : ¬ (3 ≤ pl.name.length ∧ 3 ≤ pl.address.length)) :
    add_warehouse st pl = (.error (.InvalidPayload "Validation error"), st) := by
  simp [add_warehouse, h]

lemma add_warehouse_valid (st : State) (pl : WarehousePayload)
    (h : 3 ≤ pl.name.length ∧ 3 ≤ pl.address.length)
    (hs : SortedKeys st.warehouses)
    (hfresh : mapGet st.warehouses st.counter = none) :
    add_warehouse st pl =
      (.ok ⟨st.counter, pl.name, pl.address⟩,
       ⟨(st.counter + 1) % U64,
        (mapInsert st.warehouses st.counter ⟨st.counter, pl.name, pl.address⟩).1,
        st.products⟩) := by
  have hsnd := mapInsert_snd_eq_mapGet
    (m := st.warehouses) (k := st.counter) (v := ⟨st.counter, pl.name, pl.address⟩) hs
  rw [hfresh] at hsnd
  simp [add_warehouse, h, hsnd]

lemma edit_warehouse_notfound (st : State) (pl : EditWarehousePayload)
    (h : mapGet st.warehouses pl.warehouse_id = none) :
    edit_warehouse st pl =
      (.error (.NotFound ("warehouse of id: " ++ toString pl.warehouse_id ++ " not found")), st) := by
  simp [edit_warehouse, h]

lemma edit_warehouse_found (st : State) (pl : EditWarehousePayload) (w : Warehouse)
    (hwf : WF st) (h : mapGet st.warehouses pl.warehouse_id = some w) :
    edit_warehouse st pl =
      (.ok ⟨w.id, pl.name, w.address⟩,
       ⟨st.counter,
        (mapInsert st.warehouses w.id ⟨w.id, pl.name, w.address⟩).1,
        st.products⟩) := by
  have hid : w.id = pl.warehouse_id := hwf.wGet_id h
  have hg : mapGet st.warehouses w.id = some w := by rw [hid]; exact h
  have hsnd := (mapInsert_snd_eq_mapGet
    (m := st.warehouses) (k := w.id) (v := ⟨w.id, pl.name, w.address⟩) hwf.wSorted).trans hg
  simp [edit_warehouse, h, hsnd]

lemma add_product_invalid (st : State) (pl : ProductPayload) (now : Nat)
    (h : ¬ 3 ≤ pl.name.length) :
    add_product st pl now = (.error (.InvalidPayload "Validation error"), st) := by
  simp [add_product, h]

lemma add_product_no_warehouse (st : State) (pl : ProductPayload) (now : Nat)
    (hv : 3 ≤ pl.name.length)
    (h : mapGet st.warehouses pl.warehouse_id = none) :
    add_product st pl now =
      (.error (.NotFound ("Warehouse of id: " ++ toString pl.warehouse_id ++ " not found")),
       ⟨(st.counter + 1) % U64, st.warehouses, st.products⟩) := by
  simp [add_product, hv, h]

lemma add_product_ok (st : State) (pl : ProductPayload) (now : Nat) (w : Warehouse)
    (hv : 3 ≤ pl.name.length)
    (hw : mapGet st.warehouses pl.warehouse_id = some w)
    (hs : SortedKeys st.products)
    (hfresh : mapGet st.products st.counter = none) :
    add_product st pl now =
      (.ok ⟨st.counter, pl.name, pl.quantity, pl.category, w, now, now⟩,
       ⟨(st.counter + 1) % U64,
        st.warehouses,
        (mapInsert st.products st.counter
          ⟨st.counter, pl.name, pl.quantity, pl.category, w, now, now⟩).1⟩) := by
  have hsnd := mapInsert_snd_eq_mapGet (m := st.products) (k := st.counter)
    (v := ⟨st.counter, pl.name, pl.quantity, pl.category, w, now, now⟩) hs
  rw [hfresh] at hsnd
  simp [add_product, hv, hw, hsnd]

lemma remove_product_notfound (st : State) (pl : GetProductPayload)
    (h : mapGet st.products pl.product_id = none) :
    remove_product_from_warehouse st pl =
      (.error (.NotFound ("product of id: " ++ toString pl.product_id ++ " not found")), st) := by
  simp [remove_product_from_warehouse, h]

lemma remove_product_insufficient (st : State) (pl : GetProductPayload) (p : Product)
    (h : mapGet st.products pl.product_id = some p)
    (hq : p.quantity < pl.amount) :
    remove_product_from_warehouse st pl =
      (.error (.InvalidPayload ("Not enough quantity of product: " ++ p.name)), st) := by
  simp [remove_product_from_warehouse, h, hq]

lemma remove_product_ok (st : State) (pl : GetProductPayload) (p : Product)
    (hwf : WF st)
    (h : mapGet st.products pl.product_id = some p)
    (hq : ¬ p.quantity < pl.amount) :
    remove_product_from_warehouse st pl =
      (.ok ⟨p.id, p.name, p.quantity - pl.amount, p.category, p.warehouse, p.added_at, p.re_stocked_at⟩,
       ⟨st.counter,
        st.warehouses,
        (mapInsert st.products p.id
          ⟨p.id, p.name, p.quantity - pl.amount, p.category, p.warehouse, p.added_at, p.re_stocked_at⟩).1⟩) := by
  have hid : p.id = pl.product_id := hwf.pGet_id h
  have hg : mapGet st.products p.id = some p := by rw [hid]; exact h
  have hsnd := (mapInsert_snd_eq_mapGet (m := st.products) (k := p.id)
    (v := ⟨p.id, p.name, p.quantity - pl.amount, p.category, p.warehouse, p.added_at, p.re_stocked_at⟩)
    hwf.pSorted).trans hg
  simp [remove_product_from_warehouse, h, hq, hsnd]

lemma edit_product_notfound (st : State) (pl : EditProductPayload)
    (h : mapGet st.products pl.product_id = none) :
    edit_product st pl =
      (.error (.NotFound ("product of id: " ++ toString pl.product_id ++ " not found")), st) := by
  simp [edit_product, h]

lemma edit_product_found (st : State) (pl : EditProductPayload) (p : Product)
    (hwf : WF st) (h : mapGet st.products pl.product_id = some p) :
    edit_product st pl =
      (.ok ⟨p.id, pl.name, p.quantity, p.category, p.warehouse, p.added_at, p.re_stocked_at⟩,
       ⟨st.counter,
        st.warehouses,
        (mapInsert st.products p.id
          ⟨p.id, pl.name, p.quantity, p.category, p.warehouse, p.added_at, p.re_stocked_at⟩).1⟩) := by
  have hid : p.id = pl.product_id := hwf.pGet_id h
  have hg : mapGet st.products p.id = some p := by rw [hid]; exact h
  have hsnd := (mapInsert_snd_eq_mapGet (m := st.products) (k := p.id)
    (v := ⟨p.id, pl.name, p.quantity, p.category, p.warehouse, p.added_at, p.re_stocked_at⟩)
    hwf.pSorted).trans hg
  simp [edit_product, h, hsnd]

/-! ### Concrete fixtures for witnesses -/

/-- A concrete warehouse record. -/
def wh0 : Warehouse := ⟨0, "Main Depot", "12 Dock Rd"⟩

/-- A concrete product record stocked in `wh0`. -/
def pr0 : Product := ⟨1, "Widget", 10, "tools", wh0, 5, 5⟩

/-- A concrete reachable-shape state holding `wh0` and `pr0`. -/
def st0 : State := ⟨2, [(0, wh0)], [(1, pr0)]⟩

/-- `pr0` after a withdrawal of 4 units. -/
def pr1 : Product := ⟨1, "Widget", 6, "tools", wh0, 5, 5⟩

/-- `st0` after that withdrawal. -/
def st1 : State := ⟨2, [(0, wh0)], [(1, pr1)]⟩

/-! ### Claim theorems -/

/-- C6: `edit_warehouse` and `edit_product` never change the record's `id`;
`edit_warehouse` never changes `address`; `edit_product` never changes the
embedded `warehouse`, `quantity`, `category`, `added_at` or `re_stocked_at`
fields — each replaces only the `name` field, both in the returned record and
in the record re-stored under the same key. -/
theorem edit_preserves_identity (st : State) (hwf : WF st) :
    (∀ (wid : Nat) (w : Warehouse) (nm : String),
      mapGet st.warehouses wid = some w →
      ∃ st', edit_warehouse st ⟨wid, nm⟩ = (.ok ⟨w.id, nm, w.address⟩, st') ∧
        mapGet st'.warehouses wid = some ⟨w.id, nm, w.address⟩) ∧
    (∀ (pid : Nat) (p : Product) (nm pw : String),
      mapGet st.products pid = some p →
      ∃ st', edit_product st ⟨nm, pw, pid⟩ =
          (.ok ⟨p.id, nm, p.quantity, p.category, p.warehouse, p.added_at, p.re_stocked_at⟩, st') ∧
        mapGet st'.products pid =
          some ⟨p.id, nm, p.quantity, p.category, p.warehouse, p.added_at, p.re_stocked_at⟩) := by
  constructor
  · intro wid w nm hg
    have hid : w.id = wid := hwf.wGet_id hg
    refine ⟨_, edit_warehouse_found st ⟨wid, nm⟩ w hwf hg, ?_⟩
    subst hid
    exact mapGet_mapInsert_self
  · intro pid p nm pw hg
    have hid : p.id = pid := hwf.pGet_id hg
    refine ⟨_, edit_product_found st ⟨nm, pw, pid⟩ p hwf hg, ?_⟩
    subst hid
    exact mapGet_mapInsert_self

/-- Witness for C6 at a concrete state. -/
theorem edit_preserves_identity_witness :
    (∃ st', edit_warehouse st0 ⟨0, "New Depot"⟩ = (.ok ⟨0, "New Depot", "12 Dock Rd"⟩, st') ∧
      mapGet st'.warehouses 0 = some ⟨0, "New Depot", "12 Dock Rd"⟩) ∧
    (∃ st', edit_product st0 ⟨"Gadget", "pw", 1⟩ =
        (.ok ⟨1, "Gadget", 10, "tools", wh0, 5, 5⟩, st') ∧
      mapGet st'.products 1 = some ⟨1, "Gadget", 10, "tools", wh0, 5, 5⟩) := by
  have h := edit_preserves_identity st0 (by decide)
  exact ⟨h.1 0 wh0 "New Depot" (by decide), h.2 1 pr0 "Gadget" "pw" (by decide)⟩

/-- C3: withdrawing more than the stored quantity fails with `InvalidPayload`
and leaves the state unchanged; withdrawing at most the stored quantity stores
and returns the record with quantity decreased by exactly the amount (the
final equation shows the subtraction is exact, so the stored quantity never
goes below zero). -/
theorem withdraw_quantity_spec (st : State) (hwf : WF st) (pid amount : Nat) (p : Product)
    (hget : mapGet st.products pid = some p) :
    (p.quantity < amount →
      remove_product_from_warehouse st ⟨pid, amount⟩ =
        (.error (.InvalidPayload ("Not enough quantity of product: " ++ p.name)), st)) ∧
    (amount ≤ p.quantity →
      ∃ st', remove_product_from_warehouse st ⟨pid, amount⟩ =
          (.ok ⟨p.id, p.name, p.quantity - amount, p.category, p.warehouse, p.added_at, p.re_stocked_at⟩, st') ∧
        mapGet st'.products pid =
          some ⟨p.id, p.name, p.quantity - amount, p.category, p.warehouse, p.added_at, p.re_stocked_at⟩ ∧
        p.quantity - amount + amount = p.quantity) := by
  constructor
  · intro hq
    exact remove_product_insufficient st ⟨pid, amount⟩ p hget hq
  · intro hq
    have hq' : ¬ p.quantity < amount := not_lt.mpr hq
    have hid : p.id = pid := hwf.pGet_id hget
    refine ⟨_, remove_product_ok st ⟨pid, amount⟩ p hwf hget hq', ?_, Nat.sub_add_cancel hq⟩
    subst hid
    exact mapGet_mapInsert_self

/-- Witness for C3 at a concrete state: withdrawing 15 of 10 fails, withdrawing 4 leaves 6. -/
theorem withdraw_quantity_spec_witness :
    (pr0.quantity < 15 →
      remove_product_from_warehouse st0 ⟨1, 15⟩ =
        (.error (.InvalidPayload ("Not enough quantity of product: " ++ pr0.name)), st0)) ∧
    (4 ≤ pr0.quantity →
      ∃ st', remove_product_from_warehouse st0 ⟨1, 4⟩ =
          (.ok ⟨pr0.id, pr0.name, pr0.quantity - 4, pr0.category, pr0.warehouse, pr0.added_at, pr0.re_stocked_at⟩, st') ∧
        mapGet st'.products 1 =
          some ⟨pr0.id, pr0.name, pr0.quantity - 4, pr0.category, pr0.warehouse, pr0.added_at, pr0.re_stocked_at⟩ ∧
        pr0.quantity - 4 + 4 = pr0.quantity) :=
  ⟨(withdraw_quantity_spec st0 (by decide) 1 15 pr0 (by decide)).1,
   (withdraw_quantity_spec st0 (by decide) 1 4 pr0 (by decide)).2⟩

/-- C10: a successful withdrawal changes only the `quantity` field: `id`,
`name`, `category`, the embedded `warehouse`, `added_at` and `re_stocked_at`
are unchanged in the returned and re-stored record — in particular
`re_stocked_at` is not refreshed — and the warehouse store and counter are
untouched. -/
theorem withdraw_frame (st : State) (hwf : WF st) (pid amount : Nat) (p p' : Product) (st' : State)
    (hget : mapGet st.products pid = some p)
    (hrun : remove_product_from_warehouse st ⟨pid, amount⟩ = (.ok p', st')) :
    p'.id = p.id ∧ p'.name = p.name ∧ p'.category = p.category ∧
    p'.warehouse = p.warehouse ∧ p'.added_at = p.added_at ∧ p'.re_stocked_at = p.re_stocked_at ∧
    mapGet st'.products pid = some p' ∧ st'.warehouses = st.warehouses ∧ st'.counter = st.counter := by
  by_cases hq : p.quantity < amount
  · rw [remove_product_insufficient st ⟨pid, amount⟩ p hget hq] at hrun
    simp at hrun
  · rw [remove_product_ok st ⟨pid, amount⟩ p hwf hget hq] at hrun
    have h1 : (Except.ok (ε := Error)
        (⟨p.id, p.name, p.quantity - amount, p.category, p.warehouse, p.added_at, p.re_stocked_at⟩ : Product)) = .ok p' ∧
        (⟨st.counter, st.warehouses,
          (mapInsert st.products p.id
            ⟨p.id, p.name, p.quantity - amount, p.category, p.warehouse, p.added_at, p.re_stocked_at⟩).1⟩ : State) = st' :=
      Prod.mk.injEq .. ▸ hrun
    obtain ⟨hp, hst⟩ := h1
    have hp' : p' = ⟨p.id, p.name, p.quantity - amount, p.category, p.warehouse, p.added_at, p.re_stocked_at⟩ := by
      cases hp
      rfl
    subst hp'
    subst hst
    have hid : p.id = pid := hwf.pGet_id hget
    subst hid
    exact ⟨rfl, rfl, rfl, rfl, rfl, rfl, mapGet_mapInsert_self, rfl, rfl⟩

/-- Witness for C10 at a concrete state. -/
theorem withdraw_frame_witness :
    pr1.id = pr0.id ∧ pr1.name = pr0.name ∧ pr1.category = pr0.category ∧
    pr1.warehouse = pr0.warehouse ∧ pr1.added_at = pr0.added_at ∧
    pr1.re_stocked_at = pr0.re_stocked_at ∧
    mapGet st1.products 1 = some pr1 ∧
    st1.warehouses = st0.warehouses ∧ st1.counter = st0.counter :=
  withdraw_frame st0 (by decide) 1 4 pr0 pr1 st1 (by decide) (by decide)

/-- C5: `add_product` with a valid name returns `NotFound` when the referenced
warehouse is absent; when it is present the call succeeds, returning and
storing under the fresh id (the current counter value, not yet a key of the
product store) a record whose `name`, `category` and `quantity` are the inputs,
whose embedded `warehouse` is a copy of the found record, and whose two
timestamps are both the current time. -/
theorem create_item_spec (st : State) (hwf : WF st) (pl : ProductPayload) (now : Nat)
    (hname : 3 ≤ pl.name.length) :
    (mapGet st.warehouses pl.warehouse_id = none →
      ∃ msg st', add_product st pl now = (.error (.NotFound msg), st')) ∧
    (∀ w, mapGet st.warehouses pl.warehouse_id = some w →
      mapGet st.products st.counter = none ∧
      ∃ st', add_product st pl now =
          (.ok ⟨st.counter, pl.name, pl.quantity, pl.category, w, now, now⟩, st') ∧
        mapGet st'.products st.counter =
          some ⟨st.counter, pl.name, pl.quantity, pl.category, w, now, now⟩) := by
  constructor
  · intro h
    exact ⟨_, _, add_product_no_warehouse st pl now hname h⟩
  · intro w hw
    refine ⟨hwf.pGet_counter_none, _,
      add_product_ok st pl now w hname hw hwf.pSorted hwf.pGet_counter_none, ?_⟩
    exact mapGet_mapInsert_self

/-- Witness for C5: absent warehouse id 7 yields `NotFound`; present warehouse
id 0 yields the stored record. -/
theorem create_item_spec_witness :
    (∃ msg st', add_product st0 ⟨"Bolt", "hw", 3, 7⟩ 42 = (.error (.NotFound msg), st')) ∧
    (mapGet st0.products st0.counter = none ∧
      ∃ st', add_product st0 ⟨"Bolt", "hw", 3, 0⟩ 42 =
          (.ok ⟨st0.counter, "Bolt", 3, "hw", wh0, 42, 42⟩, st') ∧
        mapGet st'.products st0.counter =
          some ⟨st0.counter, "Bolt", 3, "hw", wh0, 42, 42⟩) :=
  ⟨(create_item_spec st0 (by decide) ⟨"Bolt", "hw", 3, 7⟩ 42 (by decide)).1 (by decide),
   (create_item_spec st0 (by decide) ⟨"Bolt", "hw", 3, 0⟩ 42 (by decide)).2 wh0 (by decide)⟩

/-- C9: `get_all_warehouses` returns `NotFound` exactly when the warehouse
store is empty; otherwise it returns every stored warehouse, listed in
ascending order of id. -/
theorem list_all_spec (st : State) (hwf : WF st) :
    (get_all_warehouses st = .error (.NotFound "no Warehouses found") ↔ st.warehouses = []) ∧
    (st.warehouses ≠ [] →
      get_all_warehouses st = .ok (st.warehouses.map Prod.snd) ∧
      List.Pairwise (fun a b => a.id < b.id) (st.warehouses.map Prod.snd)) := by
  have hpw : List.Pairwise (fun a b => a.id < b.id) (st.warehouses.map Prod.snd) := by
    rw [List.pairwise_map]
    refine hwf.wSorted.imp_of_mem ?_
    intro a b ha hb hlt
    have h1 := (hwf.2.2.1 a ha).1
    have h2 := (hwf.2.2.1 b hb).1
    rw [h1, h2]
    exact hlt
  cases hm : st.warehouses with
  | nil => simp [get_all_warehouses, hm]
  | cons e rest =>
    have hok : get_all_warehouses st = .ok (st.warehouses.map Prod.snd) := by
      simp [get_all_warehouses, hm]
    constructor
    · rw [hok]
      simp [hm]
    · intro _
      rw [← hm]
      exact ⟨hok, hpw⟩

/-- Witness for C9 at a concrete state. -/
theorem list_all_spec_witness :
    (get_all_warehouses st0 = .error (.NotFound "no Warehouses found") ↔ st0.warehouses = []) ∧
    (st0.warehouses ≠ [] →
      get_all_warehouses st0 = .ok (st0.warehouses.map Prod.snd) ∧
      List.Pairwise (fun a b => a.id < b.id) (st0.warehouses.map Prod.snd)) :=
  list_all_spec st0 (by decide)

/-! ### Substring search (C8) -/

lemma containsSub_iff (hay needle : List Char) :
    containsSub hay needle = true ↔ needle <:+: hay := by
  induction hay with
  | nil =>
    simp [containsSub, List.isEmpty_iff, List.infix_nil]
  | cons a rest ih =>
    simp only [containsSub, Bool.or_eq_true, ih, List.infix_cons_iff]
    constructor
    · rintro (h | h)
      · exact Or.inl ( List.isPrefixOf_iff_prefix.mp h)
      · exact Or.inr h
    · rintro (h | h)
      · exact Or.inl ( List.isPrefixOf_iff_prefix.mpr h)
      · exact Or.inr h

/-- C8: `get_warehouse_by_name` succeeds with exactly the stored warehouses
whose lowercased name contains the lowercased search string as a substring,
and returns `NotFound` if and only if no stored warehouse matches. -/
theorem find_by_name_spec (st : State) (search : String) :
    (∀ l, get_warehouse_by_name st search = .ok l →
      ∀ w : Warehouse, w ∈ l ↔ w ∈ st.warehouses.map Prod.snd ∧
        search.toLower.data <:+: w.name.toLower.data) ∧
    ((∃ msg, get_warehouse_by_name st search = .error (.NotFound msg)) ↔
      ∀ w ∈ st.warehouses.map Prod.snd, ¬ search.toLower.data <:+: w.name.toLower.data) := by
  have hiff : ∀ w : Warehouse,
      strContains w.name.toLower search.toLower = true ↔
        search.toLower.data <:+: w.name.toLower.data :=
    fun w => containsSub_iff _ _
  cases hf : (st.warehouses.map Prod.snd).filter
      (fun warehouse => strContains warehouse.name.toLower search.toLower) with
  | nil =>
    have hget : get_warehouse_by_name st search =
        .error (.NotFound ("No warehouses for name: " ++ search.toLower ++ " could be found")) := by
      simp [get_warehouse_by_name, hf]
    constructor
    · intro l hl
      rw [hget] at hl
      simp at hl
    · constructor
      · intro _ w hw hinf
        have hmem : w ∈ (st.warehouses.map Prod.snd).filter
            (fun warehouse => strContains warehouse.name.toLower search.toLower) :=
          List.mem_filter.mpr ⟨hw, (hiff w).mpr hinf⟩
        rw [hf] at hmem
        simp at hmem
      · intro _
        exact ⟨_, hget⟩
  | cons x xs =>
    have hget : get_warehouse_by_name st search = .ok (x :: xs) := by
      simp [get_warehouse_by_name, hf]
    constructor
    · intro l hl
      rw [hget] at hl
      injection hl with hl
      subst hl
      intro w
      rw [← hf, List.mem_filter, hiff w]
    · constructor
      · intro ⟨msg, hmsg⟩
        rw [hget] at hmsg
        simp at hmsg
      · intro hall
        exfalso
        have hx : x ∈ (st.warehouses.map Prod.snd).filter
            (fun warehouse => strContains warehouse.name.toLower search.toLower) := by
          rw [hf]
          exact List.mem_cons_self x xs
        have hx' := List.mem_filter.mp hx
        exact hall x hx'.1 ((hiff x).mp hx'.2)

/-! ### Shape of the state after each mutating operation -/

lemma applyOp_addW (pl : WarehousePayload) (st : State) :
    applyOp (.addW pl) st = ((add_warehouse st pl).1.map Ret.w, (add_warehouse st pl).2) := rfl

lemma applyOp_editW (pl : EditWarehousePayload) (st : State) :
    applyOp (.editW pl) st = ((edit_warehouse st pl).1.map Ret.w, (edit_warehouse st pl).2) := rfl

lemma applyOp_addP (pl : ProductPayload) (now : Nat) (st : State) :
    applyOp (.addP pl now) st = ((add_product st pl now).1.map Ret.p, (add_product st pl now).2) := rfl

lemma applyOp_removeP (pl : GetProductPayload) (st : State) :
    applyOp (.removeP pl) st =
      ((remove_product_from_warehouse st pl).1.map Ret.p, (remove_product_from_warehouse st pl).2) := rfl

lemma applyOp_editP (pl : EditProductPayload) (st : State) :
    applyOp (.editP pl) st = ((edit_product st pl).1.map Ret.p, (edit_product st pl).2) := rfl

lemma add_warehouse_snd (st : State) (pl : WarehousePayload) :
    (add_warehouse st pl).2 = st ∨
    (3 ≤ pl.name.length ∧ (add_warehouse st pl).2 =
      ⟨(st.counter + 1) % U64,
       (mapInsert st.warehouses st.counter ⟨st.counter, pl.name, pl.address⟩).1, st.products⟩) := by
  by_cases hv : 3 ≤ pl.name.length ∧ 3 ≤ pl.address.length
  · refine Or.inr ⟨hv.1, ?_⟩
    simp only [add_warehouse, if_neg (not_not_intro hv)]
    cases (mapInsert st.warehouses st.counter ⟨st.counter, pl.name, pl.address⟩).2 <;> rfl
  · exact Or.inl (by rw [add_warehouse_invalid st pl hv])

lemma edit_warehouse_snd (st : State) (pl : EditWarehousePayload) :
    (edit_warehouse st pl).2 = st ∨
    ∃ w, mapGet st.warehouses pl.warehouse_id = some w ∧
      (edit_warehouse st pl).2 =
        ⟨st.counter, (mapInsert st.warehouses w.id ⟨w.id, pl.name, w.address⟩).1, st.products⟩ := by
  cases hg : mapGet st.warehouses pl.warehouse_id with
  | none => exact Or.inl (by rw [edit_warehouse_notfound st pl hg])
  | some w =>
    refine Or.inr ⟨w, rfl, ?_⟩
    simp only [edit_warehouse, hg]
    cases (mapInsert st.warehouses w.id ⟨w.id, pl.name, w.address⟩).2 <;> rfl

lemma add_product_snd (st : State) (pl : ProductPayload) (now : Nat) :
    (add_product st pl now).2 = st ∨
    (3 ≤ pl.name.length ∧
      ((add_product st pl now).2 = ⟨(st.counter + 1) % U64, st.warehouses, st.products⟩ ∨
       ∃ w, mapGet st.warehouses pl.warehouse_id = some w ∧
        (add_product st pl now).2 =
          ⟨(st.counter + 1) % U64, st.warehouses,
           (mapInsert st.products st.counter
             ⟨st.counter, pl.name, pl.quantity, pl.category, w, now, now⟩).1⟩)) := by
  by_cases hv : 3 ≤ pl.name.length
  · refine Or.inr ⟨hv, ?_⟩
    cases hg : mapGet st.warehouses pl.warehouse_id with
    | none => exact Or.inl (by rw [add_product_no_warehouse st pl now hv hg])
    | some w =>
      refine Or.inr ⟨w, rfl, ?_⟩
      cases hmi : (mapInsert st.products st.counter
        ⟨st.counter, pl.name, pl.quantity, pl.category, w, now, now⟩).2 <;>
        simp [add_product, hv, hg, hmi]
  · exact Or.inl (by rw [add_product_invalid st pl now hv])

lemma remove_product_snd (st : State) (pl : GetProductPayload) :
    (remove_product_from_warehouse st pl).2 = st ∨
    ∃ p, mapGet st.products pl.product_id = some p ∧
      (remove_product_from_warehouse st pl).2 =
        ⟨st.counter, st.warehouses,
         (mapInsert st.products p.id
           ⟨p.id, p.name, p.quantity - pl.amount, p.category,
            p.warehouse, p.added_at, p.re_stocked_at⟩).1⟩ := by
  cases hg : mapGet st.products pl.product_id with
  | none => exact Or.inl (by rw [remove_product_notfound st pl hg])
  | some p =>
    by_cases hq : p.quantity < pl.amount
    · exact Or.inl (by rw [remove_product_insufficient st pl p hg hq])
    · refine Or.inr ⟨p, rfl, ?_⟩
      simp only [remove_product_from_warehouse, hg, if_neg hq]
      cases (mapInsert st.products p.id
        ⟨p.id, p.name, p.quantity - pl.amount, p.category,
         p.warehouse, p.added_at, p.re_stocked_at⟩).2 <;> rfl

lemma edit_product_snd (st : State) (pl : EditProductPayload) :
    (edit_product st pl).2 = st ∨
    ∃ p, mapGet st.products pl.product_id = some p ∧
      (edit_product st pl).2 =
        ⟨st.counter, st.warehouses,
         (mapInsert st.products p.id
           ⟨p.id, pl.name, p.quantity, p.category, p.warehouse, p.added_at, p.re_stocked_at⟩).1⟩ := by
  cases hg : mapGet st.products pl.product_id with
  | none => exact Or.inl (by rw [edit_product_notfound st pl hg])
  | some p =>
    refine Or.inr ⟨p, rfl, ?_⟩
    simp only [edit_product, hg]
    cases (mapInsert st.products p.id
      ⟨p.id, pl.name, p.quantity, p.category, p.warehouse, p.added_at, p.re_stocked_at⟩).2 <;> rfl

/-! ### The minimum-name-length invariant (C4) -/

/-- Every stored record, of either kind, has a name of at least 3 characters. -/
def NamesOK (st : State) : Prop :=
  (∀ e ∈ st.warehouses, 3 ≤ e.2.name.length) ∧ (∀ e ∈ st.products, 3 ≤ e.2.name.length)

/-- The edit operations do not validate their payload; this side condition
supplies the missing guarantee for them (trivial for every other operation). -/
def editNamesValid : Op → Prop
  | .editW pl => 3 ≤ pl.name.length
  | .editP pl => 3 ≤ pl.name.length
  | _ => True

lemma namesOK_applyOp (o : Op) (st : State) (h : NamesOK st) (he : editNamesValid o) :
    NamesOK (applyOp o st).2 := by
  cases o with
  | getAllW => exact h
  | getWByName s => exact h
  | getWById i => exact h
  | getP i => exact h
  | addW pl =>
    rw [applyOp_addW]
    rcases add_warehouse_snd st pl with hs | ⟨hn, hs⟩
    · rw [hs]; exact h
    · rw [hs]
      refine ⟨?_, h.2⟩
      intro e he'
      rcases mem_mapInsert he' with rfl | hmem
      · exact hn
      · exact h.1 e hmem
  | editW pl =>
    rw [applyOp_editW]
    rcases edit_warehouse_snd st pl with hs | ⟨w, _, hs⟩
    · rw [hs]; exact h
    · rw [hs]
      refine ⟨?_, h.2⟩
      intro e he'
      rcases mem_mapInsert he' with rfl | hmem
      · exact he
      · exact h.1 e hmem
  | addP pl now =>
    rw [applyOp_addP]
    rcases add_product_snd st pl now with hs | ⟨hn, hs | ⟨w, _, hs⟩⟩
    · rw [hs]; exact h
    · rw [hs]; exact h
    · rw [hs]
      refine ⟨h.1, ?_⟩
      intro e he'
      rcases mem_mapInsert he' with rfl | hmem
      · exact hn
      · exact h.2 e hmem
  | removeP pl =>
    rw [applyOp_removeP]
    rcases remove_product_snd st pl with hs | ⟨p, hg, hs⟩
    · rw [hs]; exact h
    · rw [hs]
      refine ⟨h.1, ?_⟩
      intro e he'
      rcases mem_mapInsert he' with rfl | hmem
      · exact h.2 (pl.product_id, p) (mapGet_mem hg)
      · exact h.2 e hmem
  | editP pl =>
    rw [applyOp_editP]
    rcases edit_product_snd st pl with hs | ⟨p, _, hs⟩
    · rw [hs]; exact h
    · rw [hs]
      refine ⟨h.1, ?_⟩
      intro e he'
      rcases mem_mapInsert he' with rfl | hmem
      · exact he
      · exact h.2 e hmem

/-- C4 counterexample: after creating a valid warehouse and editing it with
the one-character name "x" (the edit payload is never validated), the stored
record's name has length 1 < 3, violating the data-model invariant. -/
theorem edit_drops_name_validation :
    mapGet (runOps [.addW ⟨"Main Depot", "12 Dock Rd", "pw", "NYC"⟩,
                    .editW ⟨0, "x"⟩] initState).warehouses 0 =
      some ⟨0, "x", "12 Dock Rd"⟩ ∧
    ¬ 3 ≤ ("x" : String).length := by
  constructor
  · decide
  · decide

/-- C4 amended: the create operations validate names, so after any operation
sequence from the fresh state in which every edit payload (the unvalidated
case) carries a name of length at least 3, every stored record of either kind
has a name of length at least 3. -/
theorem name_invariant_with_valid_edits (ops : List Op)
    (he : ∀ o ∈ ops, editNamesValid o) :
    NamesOK (runOps ops initState) := by
  have hgen : ∀ (l : List Op) (st : State), NamesOK st → (∀ o ∈ l, editNamesValid o) →
      NamesOK (runOps l st) := by
    intro l
    induction l with
    | nil => intro st h _; exact h
    | cons o rest ih =>
      intro st h hall
      exact ih _ (namesOK_applyOp o st h (hall o (List.mem_cons_self o rest)))
        (fun o' ho' => hall o' (List.mem_cons_of_mem _ ho'))
  refine hgen ops initState ⟨?_, ?_⟩ he <;> intro e he' <;> simp [initState] at he'

/-- Witness for the amended C4 on a concrete run. -/
theorem name_invariant_with_valid_edits_witness :
    (∀ o ∈ [Op.addW ⟨"Main Depot", "12 Dock Rd", "pw", "NYC"⟩, Op.editW ⟨0, "Depot"⟩],
      editNamesValid o) ∧
    NamesOK (runOps [Op.addW ⟨"Main Depot", "12 Dock Rd", "pw", "NYC"⟩,
                     Op.editW ⟨0, "Depot"⟩] initState) := by
  have h1 : ∀ o ∈ [Op.addW ⟨"Main Depot", "12 Dock Rd", "pw", "NYC"⟩, Op.editW ⟨0, "Depot"⟩],
      editNamesValid o := by
    intro o ho
    fin_cases ho
    · trivial
    · show 3 ≤ ("Depot" : String).length
      decide
  exact ⟨h1, name_invariant_with_valid_edits _ h1⟩

/-! ### Error paths and the id counter (C1, C2) -/

/-- C1 counterexample: from the fresh state, `add_product` with a valid name
but an absent warehouse id returns `NotFound` yet has already incremented the
persisted id counter from 0 to 1, so the state is not what it was before the
call. -/
theorem addP_error_mutates_counter :
    (applyOp (.addP ⟨"abc", "cat", 5, 0⟩ 0) initState).1 =
      .error (.NotFound ("Warehouse of id: " ++ toString (0 : Nat) ++ " not found")) ∧
    (applyOp (.addP ⟨"abc", "cat", 5, 0⟩ 0) initState).2.counter = 1 ∧
    initState.counter = 0 := by
  refine ⟨?_, ?_, rfl⟩ <;> decide

/-- C1 amended: on a well-formed state, every operation that returns an error
leaves both stores exactly as they were, and also leaves the counter unchanged
except for `add_product`'s `NotFound` path (absent warehouse), which has
already incremented the counter. -/
theorem error_frame (o : Op) (st : State) (hwf : WF st) (e : Error) (st' : State)
    (h : applyOp o st = (.error e, st')) :
    st'.warehouses = st.warehouses ∧ st'.products = st.products ∧
    (st'.counter = st.counter ∨
      ∃ pl now msg, o = .addP pl now ∧ e = .NotFound msg ∧
        st'.counter = (st.counter + 1) % U64) := by
  cases o with
  | getAllW =>
    have hst : st = st' := congrArg Prod.snd h
    subst hst
    exact ⟨rfl, rfl, Or.inl rfl⟩
  | getWByName s =>
    have hst : st = st' := congrArg Prod.snd h
    subst hst
    exact ⟨rfl, rfl, Or.inl rfl⟩
  | getWById i =>
    have hst : st = st' := congrArg Prod.snd h
    subst hst
    exact ⟨rfl, rfl, Or.inl rfl⟩
  | getP i =>
    have hst : st = st' := congrArg Prod.snd h
    subst hst
    exact ⟨rfl, rfl, Or.inl rfl⟩
  | addW pl =>
    by_cases hv : 3 ≤ pl.name.length ∧ 3 ≤ pl.address.length
    · rw [applyOp_addW, add_warehouse_valid st pl hv hwf.wSorted hwf.wGet_counter_none] at h
      simp [Except.map] at h
    · rw [applyOp_addW, add_warehouse_invalid st pl hv] at h
      have hst : st = st' := congrArg Prod.snd h
      subst hst
      exact ⟨rfl, rfl, Or.inl rfl⟩
  | editW pl =>
    cases hg : mapGet st.warehouses pl.warehouse_id with
    | none =>
      rw [applyOp_editW, edit_warehouse_notfound st pl hg] at h
      have hst : st = st' := congrArg Prod.snd h
      subst hst
      exact ⟨rfl, rfl, Or.inl rfl⟩
    | some w =>
      rw [applyOp_editW, edit_warehouse_found st pl w hwf hg] at h
      simp [Except.map] at h
  | addP pl now =>
    by_cases hv : 3 ≤ pl.name.length
    · cases hg : mapGet st.warehouses pl.warehouse_id with
      | none =>
        rw [applyOp_addP, add_product_no_warehouse st pl now hv hg] at h
        have hst : (⟨(st.counter + 1) % U64, st.warehouses, st.products⟩ : State) = st' :=
          congrArg Prod.snd h
        have he : Except.error (α := Ret)
            (Error.NotFound ("Warehouse of id: " ++ toString pl.warehouse_id ++ " not found")) =
            .error e := congrArg Prod.fst h
        subst hst
        injection he with he
        exact ⟨rfl, rfl, Or.inr ⟨pl, now, _, rfl, he.symm, rfl⟩⟩
      | some w =>
        rw [applyOp_addP, add_product_ok st pl now w hv hg hwf.pSorted hwf.pGet_counter_none] at h
        simp [Except.map] at h
    · rw [applyOp_addP, add_product_invalid st pl now hv] at h
      have hst : st = st' := congrArg Prod.snd h
      subst hst
      exact ⟨rfl, rfl, Or.inl rfl⟩
  | removeP pl =>
    cases hg : mapGet st.products pl.product_id with
    | none =>
      rw [applyOp_removeP, remove_product_notfound st pl hg] at h
      have hst : st = st' := congrArg Prod.snd h
      subst hst
      exact ⟨rfl, rfl, Or.inl rfl⟩
    | some p =>
      by_cases hq : p.quantity < pl.amount
      · rw [applyOp_removeP, remove_product_insufficient st pl p hg hq] at h
        have hst : st = st' := congrArg Prod.snd h
        subst hst
        exact ⟨rfl, rfl, Or.inl rfl⟩
      · rw [applyOp_removeP, remove_product_ok st pl p hwf hg hq] at h
        simp [Except.map] at h
  | editP pl =>
    cases hg : mapGet st.products pl.product_id with
    | none =>
      rw [applyOp_editP, edit_product_notfound st pl hg] at h
      have hst : st = st' := congrArg Prod.snd h
      subst hst
      exact ⟨rfl, rfl, Or.inl rfl⟩
    | some p =>
      rw [applyOp_editP, edit_product_found st pl p hwf hg] at h
      simp [Except.map] at h

/-- Witness for the amended C1: on `st0`, `add_product` against the absent
warehouse id 7 errors while the stores stay put and the counter moves 2 → 3. -/
theorem error_frame_witness :
    (⟨3, [(0, wh0)], [(1, pr0)]⟩ : State).warehouses = st0.warehouses ∧
    (⟨3, [(0, wh0)], [(1, pr0)]⟩ : State).products = st0.products ∧
    ((⟨3, [(0, wh0)], [(1, pr0)]⟩ : State).counter = st0.counter ∨
      ∃ pl now msg, Op.addP ⟨"abc", "cat", 5, 7⟩ 0 = Op.addP pl now ∧
        Error.NotFound ("Warehouse of id: " ++ toString (7 : Nat) ++ " not found") =
          .NotFound msg ∧
        (⟨3, [(0, wh0)], [(1, pr0)]⟩ : State).counter = (st0.counter + 1) % U64) :=
  error_frame (.addP ⟨"abc", "cat", 5, 7⟩ 0) st0 (by decide)
    (.NotFound ("Warehouse of id: " ++ toString (7 : Nat) ++ " not found"))
    ⟨3, [(0, wh0)], [(1, pr0)]⟩ (by decide)

lemma add_warehouse_ok_counter (st : State) (pl : WarehousePayload) (w' : Warehouse)
    (h : (add_warehouse st pl).1 = .ok w') :
    w'.id = st.counter ∧ (add_warehouse st pl).2.counter = (st.counter + 1) % U64 := by
  by_cases hv : 3 ≤ pl.name.length ∧ 3 ≤ pl.address.length
  · cases hmi : (mapInsert st.warehouses st.counter ⟨st.counter, pl.name, pl.address⟩).2 with
    | none =>
      have heq : add_warehouse st pl =
          (.ok ⟨st.counter, pl.name, pl.address⟩,
           ⟨(st.counter + 1) % U64,
            (mapInsert st.warehouses st.counter ⟨st.counter, pl.name, pl.address⟩).1,
            st.products⟩) := by
        simp [add_warehouse, hv.1, hv.2, hmi]
      rw [heq] at h
      injection h with h2
      exact ⟨by rw [← h2], by rw [heq]⟩
    | some v =>
      have heq : add_warehouse st pl =
          (.error (.InvalidPayload ("Could not add warehouse name: " ++ pl.name)),
           ⟨(st.counter + 1) % U64,
            (mapInsert st.warehouses st.counter ⟨st.counter, pl.name, pl.address⟩).1,
            st.products⟩) := by
        simp [add_warehouse, hv.1, hv.2, hmi]
      rw [heq] at h
      simp at h
  · rw [add_warehouse_invalid st pl hv] at h
    simp at h

lemma add_product_ok_counter (st : State) (pl : ProductPayload) (now : Nat) (p' : Product)
    (h : (add_product st pl now).1 = .ok p') :
    p'.id = st.counter ∧ (add_product st pl now).2.counter = (st.counter + 1) % U64 := by
  by_cases hv : 3 ≤ pl.name.length
  · cases hg : mapGet st.warehouses pl.warehouse_id with
    | none =>
      rw [add_product_no_warehouse st pl now hv hg] at h
      simp at h
    | some w =>
      cases hmi : (mapInsert st.products st.counter
          ⟨st.counter, pl.name, pl.quantity, pl.category, w, now, now⟩).2 with
      | none =>
        have heq : add_product st pl now =
            (.ok ⟨st.counter, pl.name, pl.quantity, pl.category, w, now, now⟩,
             ⟨(st.counter + 1) % U64, st.warehouses,
              (mapInsert st.products st.counter
                ⟨st.counter, pl.name, pl.quantity, pl.category, w, now, now⟩).1⟩) := by
          simp [add_product, hv, hg, hmi]
        rw [heq] at h
        injection h with h2
        exact ⟨by rw [← h2], by rw [heq]⟩
      | some v =>
        have heq : add_product st pl now =
            (.error (.InvalidPayload ("Could not add product name: " ++ pl.name)),
             ⟨(st.counter + 1) % U64, st.warehouses,
              (mapInsert st.products st.counter
                ⟨st.counter, pl.name, pl.quantity, pl.category, w, now, now⟩).1⟩) := by
          simp [add_product, hv, hg, hmi]
        rw [heq] at h
        simp at h
  · rw [add_product_invalid st pl now hv] at h
    simp at h

lemma applyOp_counter_cases (o : Op) (st : State) :
    ((applyOp o st).2.counter = st.counter ∧ createdId o (applyOp o st).1 = none) ∨
    ((applyOp o st).2.counter = (st.counter + 1) % U64 ∧
      (createdId o (applyOp o st).1 = none ∨
       createdId o (applyOp o st).1 = some st.counter)) := by
  cases o with
  | getAllW => exact Or.inl ⟨rfl, rfl⟩
  | getWByName s => exact Or.inl ⟨rfl, rfl⟩
  | getWById i => exact Or.inl ⟨rfl, rfl⟩
  | getP i => exact Or.inl ⟨rfl, rfl⟩
  | editW pl =>
    have hcid : createdId (.editW pl) (applyOp (.editW pl) st).1 = none := rfl
    rcases edit_warehouse_snd st pl with hs | ⟨w, _, hs⟩
    · exact Or.inl ⟨by rw [applyOp_editW, hs], hcid⟩
    · exact Or.inl ⟨by rw [applyOp_editW, hs], hcid⟩
  | removeP pl =>
    have hcid : createdId (.removeP pl) (applyOp (.removeP pl) st).1 = none := rfl
    rcases remove_product_snd st pl with hs | ⟨p, _, hs⟩
    · exact Or.inl ⟨by rw [applyOp_removeP, hs], hcid⟩
    · exact Or.inl ⟨by rw [applyOp_removeP, hs], hcid⟩
  | editP pl =>
    have hcid : createdId (.editP pl) (applyOp (.editP pl) st).1 = none := rfl
    rcases edit_product_snd st pl with hs | ⟨p, _, hs⟩
    · exact Or.inl ⟨by rw [applyOp_editP, hs], hcid⟩
    · exact Or.inl ⟨by rw [applyOp_editP, hs], hcid⟩
  | addW pl =>
    cases hr : (add_warehouse st pl).1 with
    | error err =>
      have hcid : createdId (.addW pl) (applyOp (.addW pl) st).1 = none := by
        rw [applyOp_addW]
        show createdId (.addW pl) ((add_warehouse st pl).1.map Ret.w) = none
        rw [hr]
        rfl
      rcases add_warehouse_snd st pl with hs | ⟨_, hs⟩
      · exact Or.inl ⟨by rw [applyOp_addW, hs], hcid⟩
      · exact Or.inr ⟨by rw [applyOp_addW, hs], Or.inl hcid⟩
    | ok w' =>
      have h2 := add_warehouse_ok_counter st pl w' hr
      refine Or.inr ⟨by rw [applyOp_addW]; exact h2.2, Or.inr ?_⟩
      rw [applyOp_addW]
      show createdId (.addW pl) ((add_warehouse st pl).1.map Ret.w) = some st.counter
      rw [hr]
      show some w'.id = some st.counter
      rw [h2.1]
  | addP pl now =>
    cases hr : (add_product st pl now).1 with
    | error err =>
      have hcid : createdId (.addP pl now) (applyOp (.addP pl now) st).1 = none := by
        rw [applyOp_addP]
        show createdId (.addP pl now) ((add_product st pl now).1.map Ret.p) = none
        rw [hr]
        rfl
      rcases add_product_snd st pl now with hs | ⟨_, hs | ⟨w, _, hs⟩⟩
      · exact Or.inl ⟨by rw [applyOp_addP, hs], hcid⟩
      · exact Or.inr ⟨by rw [applyOp_addP, hs], Or.inl hcid⟩
      · exact Or.inr ⟨by rw [applyOp_addP, hs], Or.inl hcid⟩
    | ok p' =>
      have h2 := add_product_ok_counter st pl now p' hr
      refine Or.inr ⟨by rw [applyOp_addP]; exact h2.2, Or.inr ?_⟩
      rw [applyOp_addP]
      show createdId (.addP pl now) ((add_product st pl now).1.map Ret.p) = some st.counter
      rw [hr]
      show some p'.id = some st.counter
      rw [h2.1]

lemma runIds_mono : ∀ (ops : List Op) (st : State), st.counter + ops.length ≤ U64 →
    (∀ i ∈ runIds ops st, st.counter ≤ i) ∧ List.Pairwise (· < ·) (runIds ops st) := by
  intro ops
  induction ops with
  | nil =>
    intro st _
    constructor
    · intro i hi
      simp [runIds] at hi
    · simp [runIds]
  | cons o rest ih =>
    intro st h
    have hlen : st.counter + rest.length + 1 ≤ U64 := by
      simp [List.length_cons] at h
      omega
    rcases applyOp_counter_cases o st with ⟨hc, hcid⟩ | ⟨hc, hcid⟩
    · have hrew : runIds (o :: rest) st = runIds rest (applyOp o st).2 := by
        simp only [runIds]
        rw [hcid]
      rw [hrew]
      have hrec := ih (applyOp o st).2 (by rw [hc]; omega)
      constructor
      · intro i hi
        have hb := hrec.1 i hi
        rw [hc] at hb
        exact hb
      · exact hrec.2
    · by_cases hwrap : st.counter + 1 < U64
      · have hc' : (applyOp o st).2.counter = st.counter + 1 := by
          rw [hc, Nat.mod_eq_of_lt hwrap]
        have hrec := ih (applyOp o st).2 (by rw [hc']; omega)
        rcases hcid with hnone | hsome
        · have hrew : runIds (o :: rest) st = runIds rest (applyOp o st).2 := by
            simp only [runIds]
            rw [hnone]
          rw [hrew]
          constructor
          · intro i hi
            have hb := hrec.1 i hi
            rw [hc'] at hb
            omega
          · exact hrec.2
        · have hrew : runIds (o :: rest) st = st.counter :: runIds rest (applyOp o st).2 := by
            simp only [runIds]
            rw [hsome]
          rw [hrew]
          have hbound : ∀ i ∈ runIds rest (applyOp o st).2, st.counter + 1 ≤ i := by
            intro i hi
            have hb := hrec.1 i hi
            rw [hc'] at hb
            exact hb
          constructor
          · intro i hi
            rcases List.mem_cons.mp hi with rfl | hi'
            · exact Nat.le_refl _
            · have := hbound i hi'
              omega
          · rw [List.pairwise_cons]
            refine ⟨fun i hi => ?_, hrec.2⟩
            have := hbound i hi
            omega
      · have hcU : st.counter + 1 = U64 := by
          have hle : st.counter + 1 ≤ U64 := by omega
          omega
        have hrestnil : rest = [] := by
          have : rest.length = 0 := by omega
          exact List.length_eq_zero.mp this
        subst hrestnil
        rcases hcid with hnone | hsome
        · have hrew : runIds [o] st = runIds ([] : List Op) (applyOp o st).2 := by
            simp only [runIds]
            rw [hnone]
          rw [hrew]
          constructor
          · intro i hi
            simp [runIds] at hi
          · simp [runIds]
        · have hrew : runIds [o] st = [st.counter] := by
            simp only [runIds]
            rw [hsome]
          rw [hrew]
          constructor
          · intro i hi
            simp at hi
            omega
          · simp
/-- C2: across any mixed sequence of operations issued from the fresh state
(at most `2 ^ 64` of them, the range of the persisted u64 counter cell), the
ids carried by the records returned by successful creates are pairwise
distinct, across both entity kinds. -/
theorem create_ids_unique (ops : List Op) (h : ops.length ≤ U64) :
    List.Pairwise (· ≠ ·) (runIds ops initState) := by
  have hp := (runIds_mono ops initState (by simpa [initState] using h)).2
  exact hp.imp Nat.ne_of_lt

/-- Witness for C2: a warehouse create followed by a product create returns
ids 0 and 1, which are distinct. -/
theorem create_ids_unique_witness :
    runIds [Op.addW ⟨"Main Depot", "12 Dock Rd", "pw", "NYC"⟩,
            Op.addP ⟨"Widget", "tools", 10, 0⟩ 99] initState = [0, 1] ∧
    ([Op.addW ⟨"Main Depot", "12 Dock Rd", "pw", "NYC"⟩,
      Op.addP ⟨"Widget", "tools", 10, 0⟩ 99] : List Op).length ≤ U64 ∧
    List.Pairwise (· ≠ ·)
      (runIds [Op.addW ⟨"Main Depot", "12 Dock Rd", "pw", "NYC"⟩,
               Op.addP ⟨"Widget", "tools", 10, 0⟩ 99] initState) :=
  ⟨by decide, by decide, create_ids_unique _ (by decide)⟩

/-!
### Binary codec (C7)

`Storable for Warehouse` and `Storable for Product` serialize with
`Encode!`/`Decode!`, i.e. the Candid binary format of the candid crate (an
external dependency of the source file).  The format is reproduced here for
the two fixed record types: magic `DIDL`, a type table describing the record
(fields sorted by the Candid hash of their names), the argument type list,
then the values — nat64/nat32 as fixed-width little-endian bytes, text as a
LEB128 byte length followed by the UTF-8 bytes, nested records inline.
-/

/-- Unsigned LEB128, fuel-based so the kernel can evaluate it (`fuel ≥ n`). -/
def lebEncodeAux : Nat → Nat → List Nat
  | 0, n => [n]
  | fuel + 1, n =>
    if n < 128 then [n]
    else (128 + n % 128) :: lebEncodeAux fuel (n / 128)

/-- Unsigned LEB128 encoding of a natural number. -/
def lebEncode (n : Nat) : List Nat := lebEncodeAux n n

/-- Unsigned LEB128 decoding; returns the value and the remaining bytes. -/
def lebDecode : List Nat → Option (Nat × List Nat)
  | [] => none
  | b :: rest =>
    if b < 128 then some (b, rest)
    else
      match lebDecode rest with
      | some (m, r) => some ((b - 128) + 128 * m, r)
      | none => none

lemma lebDecode_encodeAux (fuel : Nat) : ∀ n : Nat, n ≤ fuel → ∀ rest : List Nat,
    lebDecode (lebEncodeAux fuel n ++ rest) = some (n, rest) := by
  induction fuel with
  | zero =>
    intro n hn rest
    have h0 : n = 0 := by omega
    subst h0
    rfl
  | succ fuel ih =>
    intro n hn rest
    by_cases h : n < 128
    · rw [lebEncodeAux, if_pos h]
      simp [lebDecode, h]
    · rw [lebEncodeAux, if_neg h]
      have hb : ¬ (128 + n % 128 < 128) := by omega
      simp only [List.cons_append, List.append_eq, lebDecode, if_neg hb]
      rw [ih (n / 128) (by omega) rest]
      show some (128 + n % 128 - 128 + 128 * (n / 128), rest) = some (n, rest)
      have he : 128 + n % 128 - 128 + 128 * (n / 128) = n := by omega
      rw [he]

lemma lebDecode_encode (n : Nat) (rest : List Nat) :
    lebDecode (lebEncode n ++ rest) = some (n, rest) :=
  lebDecode_encodeAux n n (Nat.le_refl n) rest

/-- `k`-byte little-endian encoding of a natural number (nat64 and nat32 values). -/
def leBytes : Nat → Nat → List Nat
  | 0, _ => []
  | k + 1, n => n % 256 :: leBytes k (n / 256)

/-- `k`-byte little-endian decoding. -/
def leDecode : Nat → List Nat → Option (Nat × List Nat)
  | 0, bs => some (0, bs)
  | _ + 1, [] => none
  | k + 1, b :: bs =>
    match leDecode k bs with
    | some (m, r) => some (b + 256 * m, r)
    | none => none

lemma leDecode_leBytes (k : Nat) (n : Nat) (h : n < 256 ^ k) (rest : List Nat) :
    leDecode k (leBytes k n ++ rest) = some (n, rest) := by
  induction k generalizing n with
  | zero =>
    rw [pow_zero] at h
    have hn : n = 0 := by omega
    subst hn
    rfl
  | succ k ih =>
    simp only [leBytes, List.cons_append, List.append_eq, leDecode]
    rw [ih (n / 256) ((Nat.div_lt_iff_lt_mul (by omega)).mpr (by rw [pow_succ] at h; exact h))]
    show some (n % 256 + 256 * (n / 256), rest) = some (n, rest)
    have he : n % 256 + 256 * (n / 256) = n := by omega
    rw [he]

/-- UTF-8 encoding of one Unicode scalar value (each char of a Rust `String`). -/
def utf8EncodeChar (n : Nat) : List Nat :=
  if n < 0x80 then [n]
  else if n < 0x800 then [0xC0 + n / 64, 0x80 + n % 64]
  else if n < 0x10000 then [0xE0 + n / 4096, 0x80 + n / 64 % 64, 0x80 + n % 64]
  else [0xF0 + n / 262144, 0x80 + n / 4096 % 64, 0x80 + n / 64 % 64, 0x80 + n % 64]

/-- Continuation of a 2-byte UTF-8 sequence, with overlong check. -/
def utf8Cont2 (b : Nat) : List Nat → Option (Nat × List Nat)
  | b1 :: r =>
    if 0x80 ≤ b1 ∧ b1 < 0xC0 then
      if 0x80 ≤ (b - 0xC0) * 64 + (b1 - 0x80) then
        some ((b - 0xC0) * 64 + (b1 - 0x80), r)
      else none
    else none
  | [] => none

/-- Continuation of a 3-byte UTF-8 sequence, with overlong and surrogate checks. -/
def utf8Cont3 (b : Nat) : List Nat → Option (Nat × List Nat)
  | b1 :: b2 :: r =>
    if (0x80 ≤ b1 ∧ b1 < 0xC0) ∧ (0x80 ≤ b2 ∧ b2 < 0xC0) then
      if 0x800 ≤ (b - 0xE0) * 4096 + (b1 - 0x80) * 64 + (b2 - 0x80) ∧
         ((b - 0xE0) * 4096 + (b1 - 0x80) * 64 + (b2 - 0x80) < 0xD800 ∨
          0xE000 ≤ (b - 0xE0) * 4096 + (b1 - 0x80) * 64 + (b2 - 0x80)) then
        some ((b - 0xE0) * 4096 + (b1 - 0x80) * 64 + (b2 - 0x80), r)
      else none
    else none
  | _ => none

/-- Continuation of a 4-byte UTF-8 sequence, with overlong and range checks. -/
def utf8Cont4 (b : Nat) : List Nat → Option (Nat × List Nat)
  | b1 :: b2 :: b3 :: r =>
    if (0x80 ≤ b1 ∧ b1 < 0xC0) ∧ (0x80 ≤ b2 ∧ b2 < 0xC0) ∧ (0x80 ≤ b3 ∧ b3 < 0xC0) then
      if 0x10000 ≤ (b - 0xF0) * 262144 + (b1 - 0x80) * 4096 + (b2 - 0x80) * 64 + (b3 - 0x80) ∧
         (b - 0xF0) * 262144 + (b1 - 0x80) * 4096 + (b2 - 0x80) * 64 + (b3 - 0x80) < 0x110000 then
        some ((b - 0xF0) * 262144 + (b1 - 0x80) * 4096 + (b2 - 0x80) * 64 + (b3 - 0x80), r)
      else none
    else none
  | _ => none

/-- UTF-8 decoding of one Unicode scalar value. -/
def utf8DecodeChar : List Nat → Option (Nat × List Nat)
  | [] => none
  | b :: rest =>
    if b < 0x80 then some (b, rest)
    else if b < 0xC0 then none
    else if b < 0xE0 then utf8Cont2 b rest
    else if b < 0xF0 then utf8Cont3 b rest
    else if b < 0xF8 then utf8Cont4 b rest
    else none

lemma utf8DecodeChar_encode (n : Nat)
    (hv : n < 0xD800 ∨ (0xDFFF < n ∧ n < 0x110000)) (rest : List Nat) :
    utf8DecodeChar (utf8EncodeChar n ++ rest) = some (n, rest) := by
  by_cases h1 : n < 0x80
  · rw [utf8EncodeChar, if_pos h1]
    simp [utf8DecodeChar, h1]
  · by_cases h2 : n < 0x800
    · rw [utf8EncodeChar, if_neg h1, if_pos h2]
      show utf8DecodeChar ((0xC0 + n / 64) :: (0x80 + n % 64) :: rest) = some (n, rest)
      rw [utf8DecodeChar]
      rw [if_neg (by omega), if_neg (by omega), if_pos (by omega)]
      rw [utf8Cont2]
      rw [if_pos (by omega), if_pos (by omega)]
      have he : (0xC0 + n / 64 - 0xC0) * 64 + (0x80 + n % 64 - 0x80) = n := by omega
      rw [he]
    · by_cases h3 : n < 0x10000
      · rw [utf8EncodeChar, if_neg h1, if_neg h2, if_pos h3]
        show utf8DecodeChar
          ((0xE0 + n / 4096) :: (0x80 + n / 64 % 64) :: (0x80 + n % 64) :: rest) = some (n, rest)
        rw [utf8DecodeChar]
        rw [if_neg (by omega), if_neg (by omega), if_neg (by omega), if_pos (by omega)]
        rw [utf8Cont3]
        have he : (0xE0 + n / 4096 - 0xE0) * 4096 + (0x80 + n / 64 % 64 - 0x80) * 64 +
            (0x80 + n % 64 - 0x80) = n := by omega
        rw [if_pos (by omega), if_pos (by rw [he]; omega), he]
      · have h4 : n < 0x110000 := by omega
        rw [utf8EncodeChar, if_neg h1, if_neg h2, if_neg h3]
        show utf8DecodeChar
          ((0xF0 + n / 262144) :: (0x80 + n / 4096 % 64) :: (0x80 + n / 64 % 64) ::
            (0x80 + n % 64) :: rest) = some (n, rest)
        rw [utf8DecodeChar]
        rw [if_neg (by omega), if_neg (by omega), if_neg (by omega), if_neg (by omega),
          if_pos (by omega)]
        rw [utf8Cont4]
        have he : (0xF0 + n / 262144 - 0xF0) * 262144 + (0x80 + n / 4096 % 64 - 0x80) * 4096 +
            (0x80 + n / 64 % 64 - 0x80) * 64 + (0x80 + n % 64 - 0x80) = n := by omega
        rw [if_pos (by omega), if_pos (by rw [he]; omega), he]

/-- UTF-8 encoding of a char list (the bytes of a Rust `String`). -/
def utf8Encode : List Char → List Nat
  | [] => []
  | c :: cs => utf8EncodeChar c.toNat ++ utf8Encode cs

/-- Decode a whole byte list as a sequence of scalar values (`fuel ≥ length`). -/
def utf8DecodeAllFuel : Nat → List Nat → Option (List Nat)
  | _, [] => some []
  | 0, _ :: _ => none
  | fuel + 1, b :: rest =>
    match utf8DecodeChar (b :: rest) with
    | some (n, r) =>
      match utf8DecodeAllFuel fuel r with
      | some ns => some (n :: ns)
      | none => none
    | none => none

lemma utf8EncodeChar_ne_nil (n : Nat) : utf8EncodeChar n ≠ [] := by
  unfold utf8EncodeChar
  split_ifs <;> simp

lemma utf8DecodeAllFuel_encode (s : List Char) : ∀ fuel : Nat,
    (utf8Encode s).length ≤ fuel →
    utf8DecodeAllFuel fuel (utf8Encode s) = some (s.map Char.toNat) := by
  induction s with
  | nil =>
    intro fuel _
    cases fuel <;> rfl
  | cons c cs ih =>
    intro fuel hf
    have hv : c.toNat < 0xD800 ∨ (0xDFFF < c.toNat ∧ c.toNat < 0x110000) := by
      rcases c.valid with h | h
      · exact Or.inl h
      · exact Or.inr ⟨h.1, h.2⟩
    cases hsh : utf8EncodeChar c.toNat with
    | nil => exact absurd hsh (utf8EncodeChar_ne_nil _)
    | cons b bs =>
      have henc : utf8Encode (c :: cs) = b :: (bs ++ utf8Encode cs) := by
        show utf8EncodeChar c.toNat ++ utf8Encode cs = _
        rw [hsh]
        rfl
      rw [henc] at hf ⊢
      cases fuel with
      | zero =>
        simp [List.length_cons] at hf
      | succ f =>
        rw [utf8DecodeAllFuel]
        have hdec : utf8DecodeChar (b :: (bs ++ utf8Encode cs)) =
            some (c.toNat, utf8Encode cs) := by
          have h0 := utf8DecodeChar_encode c.toNat hv (utf8Encode cs)
          rw [hsh] at h0
          simpa using h0
        rw [hdec]
        show (match utf8DecodeAllFuel f (utf8Encode cs) with
          | some ns => some (c.toNat :: ns)
          | none => none) = some (List.map Char.toNat (c :: cs))
        have hlef : (utf8Encode cs).length ≤ f := by
          have hlen : (b :: (bs ++ utf8Encode cs)).length ≤ f + 1 := hf
          simp [List.length_cons, List.length_append] at hlen
          omega
        rw [ih f hlef]
        rfl

/-- Candid `text` value: LEB128 byte length, then the UTF-8 bytes. -/
def encodeText (s : String) : List Nat :=
  lebEncode (utf8Encode s.data).length ++ utf8Encode s.data

/-- Decode a Candid `text` value, returning the string and the remaining bytes. -/
def decodeText (bs : List Nat) : Option (String × List Nat) :=
  match lebDecode bs with
  | some (len, r) =>
    if len ≤ r.length then
      match utf8DecodeAllFuel len (r.take len) with
      | some ns => some (⟨ns.map Char.ofNat⟩, r.drop len)
      | none => none
    else none
  | none => none

lemma decodeText_encode (s : String) (rest : List Nat) :
    decodeText (encodeText s ++ rest) = some (s, rest) := by
  rw [encodeText, List.append_assoc, decodeText, lebDecode_encode]
  have hle : (utf8Encode s.data).length ≤ (utf8Encode s.data ++ rest).length := by
    simp
  show (if (utf8Encode s.data).length ≤ (utf8Encode s.data ++ rest).length then
      match utf8DecodeAllFuel (utf8Encode s.data).length
        (List.take (utf8Encode s.data).length (utf8Encode s.data ++ rest)) with
      | some ns => some (⟨ns.map Char.ofNat⟩,
          List.drop (utf8Encode s.data).length (utf8Encode s.data ++ rest))
      | none => none
    else none) = some (s, rest)
  rw [if_pos hle]
  rw [List.take_left, List.drop_left]
  rw [utf8DecodeAllFuel_encode s.data _ (Nat.le_refl _)]
  show some (⟨(s.data.map Char.toNat).map Char.ofNat⟩, rest) = some (s, rest)
  have hmap : (s.data.map Char.toNat).map Char.ofNat = s.data := by
    rw [List.map_map]
    have hco : Char.ofNat ∘ Char.toNat = id := funext Char.ofNat_toNat
    rw [hco, List.map_id]
  rw [hmap]

/-- The Candid field-name hash: `h(name) = fold (h * 223 + byte) mod 2 ^ 32`. -/
def candidHash (s : String) : Nat :=
  s.data.foldl (fun h c => (h * 223 + c.toNat) % (2 ^ 32)) 0

/-- Type-table entry for `record { id: nat64; name: text; address: text }`
(`0x6C` = record, `0x78` = nat64, `0x71` = text), fields in hash order. -/
def warehouseTypeEntry : List Nat :=
  [0x6C] ++ lebEncode 3 ++
  lebEncode (candidHash "id") ++ [0x78] ++
  lebEncode (candidHash "name") ++ [0x71] ++
  lebEncode (candidHash "address") ++ [0x71]

/-- Full Candid header of an encoded `Warehouse`: magic, one-entry type table,
one argument of type index 0. -/
def warehouseHeader : List Nat :=
  [0x44, 0x49, 0x44, 0x4C] ++ lebEncode 1 ++ warehouseTypeEntry ++ lebEncode 1 ++ [0x00]

/-- Type-table entry for the `Product` record (`0x79` = nat32; the `warehouse`
field refers to type index 0), fields in hash order. -/
def productTypeEntry : List Nat :=
  [0x6C] ++ lebEncode 7 ++
  lebEncode (candidHash "id") ++ [0x78] ++
  lebEncode (candidHash "name") ++ [0x71] ++
  lebEncode (candidHash "added_at") ++ [0x78] ++
  lebEncode (candidHash "quantity") ++ [0x79] ++
  lebEncode (candidHash "category") ++ [0x71] ++
  lebEncode (candidHash "warehouse") ++ lebEncode 0 ++
  lebEncode (candidHash "re_stocked_at") ++ [0x78]

/-- Full Candid header of an encoded `Product`: magic, two-entry type table,
one argument of type index 1. -/
def productHeader : List Nat :=
  [0x44, 0x49, 0x44, 0x4C] ++ lebEncode 2 ++ warehouseTypeEntry ++ productTypeEntry ++
  lebEncode 1 ++ [0x01]

lemma warehouse_field_order :
    candidHash "id" < candidHash "name" ∧ candidHash "name" < candidHash "address" := by
  decide

lemma product_field_order :
    candidHash "id" < candidHash "name" ∧
    candidHash "name" < candidHash "added_at" ∧
    candidHash "added_at" < candidHash "quantity" ∧
    candidHash "quantity" < candidHash "category" ∧
    candidHash "category" < candidHash "warehouse" ∧
    candidHash "warehouse" < candidHash "re_stocked_at" := by
  decide

/-- The value part of an encoded `Warehouse`, fields in hash order. -/
def encodeWarehouseValue (w : Warehouse) : List Nat :=
  leBytes 8 w.id ++ encodeText w.name ++ encodeText w.address

/-- Decode the value part of a `Warehouse`, returning the remaining bytes. -/
def decodeWarehouseValue (bs : List Nat) : Option (Warehouse × List Nat) :=
  (leDecode 8 bs).bind fun a =>
    (decodeText a.2).bind fun b =>
      (decodeText b.2).bind fun c =>
        some (⟨a.1, b.1, c.1⟩, c.2)

/-- The value part of an encoded `Product`, fields in hash order
(id, name, added_at, quantity, category, warehouse, re_stocked_at). -/
def encodeProductValue (p : Product) : List Nat :=
  leBytes 8 p.id ++ encodeText p.name ++ leBytes 8 p.added_at ++ leBytes 4 p.quantity ++
  encodeText p.category ++ encodeWarehouseValue p.warehouse ++ leBytes 8 p.re_stocked_at

/-- Decode the value part of a `Product`, returning the remaining bytes. -/
def decodeProductValue (bs : List Nat) : Option (Product × List Nat) :=
  (leDecode 8 bs).bind fun a =>
    (decodeText a.2).bind fun b =>
      (leDecode 8 b.2).bind fun c =>
        (leDecode 4 c.2).bind fun d =>
          (decodeText d.2).bind fun e =>
            (decodeWarehouseValue e.2).bind fun f =>
              (leDecode 8 f.2).bind fun g =>
                some (⟨a.1, b.1, d.1, e.1, f.1, c.1, g.1⟩, g.2)

/-- Require a fixed byte pattern at the front of the input. -/
def expectBytes (pat bs : List Nat) : Option (List Nat) :=
  if pat.isPrefixOf bs then some (bs.drop pat.length) else none

lemma expectBytes_append (pat rest : List Nat) :
    expectBytes pat (pat ++ rest) = some rest := by
  rw [expectBytes,
    if_pos ( List.isPrefixOf_iff_prefix.mpr (List.prefix_append pat rest)),
    List.drop_left]

/-- `Storable::to_bytes` for `Warehouse`: `Encode!(self)`. -/
def Warehouse.to_bytes (w : Warehouse) : List Nat :=
  warehouseHeader ++ encodeWarehouseValue w

/-- `Storable::from_bytes` for `Warehouse`: `Decode!(bytes, Self)`; decode
failure (the `.unwrap()` panic) is `none`. -/
def Warehouse.from_bytes (bs : List Nat) : Option Warehouse :=
  (expectBytes warehouseHeader bs).bind fun r =>
    (decodeWarehouseValue r).bind fun a =>
      if a.2 = [] then some a.1 else none

/-- `Storable::to_bytes` for `Product`: `Encode!(self)`. -/
def Product.to_bytes (p : Product) : List Nat :=
  productHeader ++ encodeProductValue p

/-- `Storable::from_bytes` for `Product`: `Decode!(bytes, Self)`; decode
failure (the `.unwrap()` panic) is `none`. -/
def Product.from_bytes (bs : List Nat) : Option Product :=
  (expectBytes productHeader bs).bind fun r =>
    (decodeProductValue r).bind fun a =>
      if a.2 = [] then some a.1 else none

/-- A constructible `Warehouse`: the `id` fits in u64 (names are valid Unicode
by construction). -/
def WarehouseValid (w : Warehouse) : Prop := w.id < U64

/-- A constructible `Product`: every numeric field fits its machine width. -/
def ProductValid (p : Product) : Prop :=
  p.id < U64 ∧ p.quantity < 2 ^ 32 ∧ p.added_at < U64 ∧ p.re_stocked_at < U64 ∧
  p.warehouse.id < U64

instance instDecidableWarehouseValid (w : Warehouse) : Decidable (WarehouseValid w) := by
  unfold WarehouseValid
  infer_instance

instance instDecidableProductValid (p : Product) : Decidable (ProductValid p) := by
  unfold ProductValid
  infer_instance

lemma pow256_8 : (256 : Nat) ^ 8 = 2 ^ 64 := by norm_num

lemma pow256_4 : (256 : Nat) ^ 4 = 2 ^ 32 := by norm_num

lemma decodeWarehouseValue_encode (w : Warehouse) (hw : w.id < 2 ^ 64) (rest : List Nat) :
    decodeWarehouseValue (encodeWarehouseValue w ++ rest) = some (w, rest) := by
  have hid : w.id < 256 ^ 8 := by rw [pow256_8]; exact hw
  simp only [decodeWarehouseValue, encodeWarehouseValue, List.append_assoc,
    leDecode_leBytes 8 w.id hid, decodeText_encode, Option.some_bind]

lemma decodeProductValue_encode (p : Product) (hp : ProductValid p) (rest : List Nat) :
    decodeProductValue (encodeProductValue p ++ rest) = some (p, rest) := by
  have hid : p.id < 256 ^ 8 := by rw [pow256_8]; exact hp.1
  have hq : p.quantity < 256 ^ 4 := by rw [pow256_4]; exact hp.2.1
  have ha : p.added_at < 256 ^ 8 := by rw [pow256_8]; exact hp.2.2.1
  have hr : p.re_stocked_at < 256 ^ 8 := by rw [pow256_8]; exact hp.2.2.2.1
  simp only [decodeProductValue, encodeProductValue, List.append_assoc,
    leDecode_leBytes 8 p.id hid, leDecode_leBytes 8 p.added_at ha,
    leDecode_leBytes 4 p.quantity hq, leDecode_leBytes 8 p.re_stocked_at hr,
    decodeText_encode, decodeWarehouseValue_encode p.warehouse hp.2.2.2.2,
    Option.some_bind]

/-- C7: for every constructible `Warehouse` and `Product`, decoding the bytes
produced by encoding the record yields the record back unchanged. -/
theorem storable_roundtrip (w : Warehouse) (p : Product)
    (hw : WarehouseValid w) (hp : ProductValid p) :
    Warehouse.from_bytes (Warehouse.to_bytes w) = some w ∧
    Product.from_bytes (Product.to_bytes p) = some p := by
  constructor
  · rw [Warehouse.to_bytes, Warehouse.from_bytes, expectBytes_append]
    have h1 : decodeWarehouseValue (encodeWarehouseValue w) = some (w, []) := by
      have h0 := decodeWarehouseValue_encode w hw []
      rwa [List.append_nil] at h0
    rw [Option.some_bind, h1]
    simp
  · rw [Product.to_bytes, Product.from_bytes, expectBytes_append]
    have h1 : decodeProductValue (encodeProductValue p) = some (p, []) := by
      have h0 := decodeProductValue_encode p hp []
      rwa [List.append_nil] at h0
    rw [Option.some_bind, h1]
    simp

/-- Witness for C7: the concrete records `wh0` and `pr0` round-trip. -/
theorem storable_roundtrip_witness :
    Warehouse.from_bytes (Warehouse.to_bytes wh0) = some wh0 ∧
    Product.from_bytes (Product.to_bytes pr0) = some pr0 :=
  storable_roundtrip wh0 pr0 (by decide) (by decide)
